import Mathlib

/-!
# Verification of the FMEA_SupplyChain mitigation core

Shallow embedding of the disruption-aware routing engine of the repository
(`mitigation_module/mitigation_solver.py`, `mitigation_module/gdelt_service.py`,
`mitigation_module/risk_monitor.py`) together with proofs of the specified
properties.  Python floats are modelled as rationals (all constants involved
are exactly representable), Python dicts as association lists or functions
with explicit defaults, exceptions as `Except`/`Option` values, and network
effects as explicit parameters describing the outcome of each attempt.
-/

/-! ### Definitions (shallow embedding of the source) -/

/-- `needle` occurs contiguously inside the character list `hay`
(checked at every suffix of `hay`). -/
def listContainsSeg (needle : List Char) : List Char → Bool
  | [] => needle.isEmpty
  | c :: t => needle.isPrefixOf (c :: t) || listContainsSeg needle t

/-- Case-sensitive literal substring test: the character list of `needle`
occurs contiguously inside the character list of `hay`.  This models
Python's `needle in hay` on `str`. -/
def strIsSubstrOf (needle hay : String) : Bool :=
  listContainsSeg needle.toList hay.toList

/-- Upper-case every character of a string (models Python `str.upper()`,
ASCII-faithful). -/
def strUpper (s : String) : String :=
  String.mk (s.data.map Char.toUpper)

/-- Lower-case every character of a string (models Python `str.lower()`,
ASCII-faithful). -/
def strLower (s : String) : String :=
  String.mk (s.data.map Char.toLower)

namespace GDELTService

/-- Embeds `GDELTService._compute_multiplier` (gdelt_service.py, lines 106-115):
upper-cases the theme text, then returns 20.0 when one of
NATURAL_DISASTER / ENV_FLOOD / ENV_STORM occurs, else 10.0 when one of
TRANSPORTATION / PORT / SHIPPING / LOGISTICS occurs, else 5.0 when STRIKE
occurs, else 2.0.  (The Python `theme_text or ""` None-guard is vacuous here
since Lean strings are never `None`.) -/
def compute_multiplier (theme_text : String) : ℚ :=
  let t := strUpper theme_text
  if (["NATURAL_DISASTER", "ENV_FLOOD", "ENV_STORM"].any
        fun tok => strIsSubstrOf tok t) then 20
  else if (["TRANSPORTATION", "PORT", "SHIPPING", "LOGISTICS"].any
        fun tok => strIsSubstrOf tok t) then 10
  else if strIsSubstrOf "STRIKE" t then 5
  else 2

end GDELTService

/-- Strip leading and trailing whitespace (models Python `str.strip()`). -/
def strStrip (s : String) : String :=
  String.mk (((s.data.dropWhile Char.isWhitespace).reverse.dropWhile
      Char.isWhitespace).reverse)

/-- The risk signal returned by `scan_news_for_risk` (risk_monitor.py):
`{"city": ..., "multiplier": ..., "reason": ...}`. -/
structure RiskAlert where
  city : String
  multiplier : ℚ
  reason : String
deriving Repr, DecidableEq

/-- Embeds `RISK_WEIGHTS` (risk_monitor.py, lines 6-10), in the source
dict's insertion order. -/
def RISK_WEIGHTS : List (String × ℚ) :=
  [("collapse", 20), ("closed", 20), ("failure", 20), ("earthquake", 20),
   ("fire", 10), ("flood", 10), ("spill", 10), ("accident", 10),
   ("strike", 5), ("protest", 5), ("delay", 2), ("traffic", 2)]

/-- The reason string generated by the scanner:
`f"{keyword.upper()} reported in {target_city}"`. -/
def riskReasonFor (city kw : String) : String :=
  strUpper kw ++ " reported in " ++ city

/-- One step of the inner keyword loop of `scan_news_for_risk`:
`if keyword in text: if weight > max_multiplier: update`. -/
def riskKeywordStep (city text : String) (acc : ℚ × Option String)
    (kw : String × ℚ) : ℚ × Option String :=
  if strIsSubstrOf kw.1 text then
    if acc.1 < kw.2 then (kw.2, some (riskReasonFor city kw.1)) else acc
  else acc

/-- One step of the outer row loop of `scan_news_for_risk`: scan every
keyword of `RISK_WEIGHTS` against one record's (lower-cased) combined text. -/
def riskRecordStep (city : String) (acc : ℚ × Option String)
    (text : String) : ℚ × Option String :=
  RISK_WEIGHTS.foldl (riskKeywordStep city text) acc

/-- The records whose lower-cased combined text contains the (already
lowered) city name as a literal substring — the `city_news` filter of
`scan_news_for_risk` (`str.contains(..., case=False, regex=False)`). -/
def matchingRecords (records : List String) (city : String) : List String :=
  (records.map strLower).filter (fun text => strIsSubstrOf city text)

/-- Embeds `scan_news_for_risk` (risk_monitor.py, lines 12-80).
`records` holds each row's combined `headline + " " + short_description`
text as built by the source; `fileExists = false` models the missing
`News_Category_Dataset_v3.json` (early `return None`), and
`loadResult = .error _` models any exception while loading or scanning the
dataset, which the source catches and turns into `None`. -/
def scan_news_for_risk (fileExists : Bool)
    (loadResult : Except Unit (List String)) (target_city : String) :
    Option RiskAlert :=
  let city := strLower (strStrip target_city)
  if fileExists then
    match loadResult with
    | .error _ => none
    | .ok records =>
      let city_news := matchingRecords records city
      if city_news.isEmpty then none
      else
        let res := city_news.foldl (riskRecordStep city) (1, none)
        if 1 < res.1 then
          some { city := city, multiplier := res.1, reason := res.2.getD "" }
        else none
  else none

/-- The weights of the keywords of `RISK_WEIGHTS` occurring in `text`. -/
def textRiskWeights (text : String) : List ℚ :=
  (RISK_WEIGHTS.filter (fun kw => strIsSubstrOf kw.1 text)).map Prod.snd

/-- The wrapped error raised by `GDELTService._http_get_with_retry` after
exhausting all attempts: `RuntimeError(f"Failed to fetch URL after
{attempts} attempt(s): ...") from last_error`. -/
structure FetchFailure (E : Type) where
  attempts : ℕ
  last_error : Option E
deriving Repr, DecidableEq

/-- The number of attempts made by `_http_get_with_retry`:
`attempts = max(self.max_retries, 1)` (gdelt_service.py, line 119). -/
def numAttempts (max_retries : ℕ) : ℕ := max max_retries 1

/-- The retry loop of `_http_get_with_retry` (gdelt_service.py, lines
120-127): with `k` attempts remaining, try attempt number `i` and return its
response on success, else remember the error and continue; when no attempt
remains, raise the wrapped error carrying the last underlying failure.
`responses i` is the outcome of the i-th `session.get` call. -/
def retryLoop (E R : Type) (attempts : ℕ) (responses : ℕ → Except E R) :
    ℕ → ℕ → Option E → Except (FetchFailure E) R
  | 0, _, lastErr => .error ⟨attempts, lastErr⟩
  | k + 1, i, lastErr =>
    match responses i with
    | .ok r => .ok r
    | .error e => retryLoop E R attempts responses k (i + 1) (some e)

/-- Embeds `GDELTService._http_get_with_retry` (gdelt_service.py, lines
117-129). -/
def http_get_with_retry (E R : Type) (max_retries : ℕ)
    (responses : ℕ → Except E R) : Except (FetchFailure E) R :=
  retryLoop E R (numAttempts max_retries) responses
    (numAttempts max_retries) 1 none

/-- A resolved risk signal as produced by the live path (`get_city_risk`)
or the static path after `setdefault("source", "static")`. -/
structure RiskSignal where
  city : String
  multiplier : ℚ
  reason : String
  source : String
  themes : List String
  article_url : Option String
deriving Repr, DecidableEq

/-- Embeds `_resolve_risk_data` (mitigation_solver.py, lines 37-57).
`enable_live` is `use_live_gdelt or _is_env_enabled("USE_GDELT_LIVE_RISK")`;
`liveLookup` is the outcome of `service.get_city_risk(destination)`
(`.error` = any exception raised there, which the source catches and logs);
`staticScan` is the result of `scan_news_for_risk(destination)`, whose
`source` key is then defaulted to `"static"`. -/
def resolve_risk_data (enable_live : Bool)
    (liveLookup : Except Unit (Option RiskSignal))
    (staticScan : Option RiskAlert) : Option RiskSignal :=
  let fallback := staticScan.map fun a =>
    { city := a.city, multiplier := a.multiplier, reason := a.reason,
      source := "static", themes := [], article_url := none }
  if enable_live then
    match liveLookup with
    | .ok (some r) => some r
    | .ok none => fallback
    | .error _ => fallback
  else fallback

/-- The cache-relevant state of one `GDELTService` instance (constructor
fields and mutable attributes, gdelt_service.py lines 40-58); wall-clock
times are seconds modelled as rationals, `Df` is the type of the fetched
dataframe. -/
structure ServiceState (Df : Type) where
  cache_ttl_seconds : ℚ
  last_fetch_time : Option ℚ
  cached_gkg_df : Option Df
  cache_expires_at : Option ℚ

/-- The `cache_ttl_seconds` constructor default (gdelt_service.py,
line 45). -/
def defaultCacheTtl : ℚ := 900

/-- Embeds `GDELTService._is_cache_valid` (lines 64-65):
`expires_at is not None and now < expires_at`. -/
def is_cache_valid (Df : Type) (s : ServiceState Df) (now : ℚ) : Bool :=
  match s.cache_expires_at with
  | none => false
  | some t => now < t

/-- Embeds `GDELTService.fetch_latest_gkg` (lines 131-169), with the network
interaction abstracted: `freshDf` is the dataframe a network fetch performed
at time `now` would deliver.  Returns the delivered dataframe, the updated
instance state, and whether a network fetch was performed.  A cached
dataframe is returned (copy, no fetch) iff `force_refresh` is false, the
cache has not expired, and a cached dataframe exists; otherwise the fetch
path runs and sets `last_fetch_time`, the cached dataframe, and
`cache_expires_at = now + cache_ttl_seconds` (`_set_cache_expiry`,
lines 67-68). -/
def fetch_latest_gkg (Df : Type) (s : ServiceState Df) (now : ℚ)
    (force_refresh : Bool) (freshDf : Df) : Df × ServiceState Df × Bool :=
  match s.cached_gkg_df with
  | some df =>
    if force_refresh = false ∧ is_cache_valid Df s now = true then
      (df, s, false)
    else
      (freshDf,
       { s with last_fetch_time := some now,
                cached_gkg_df := some freshDf,
                cache_expires_at := some (now + s.cache_ttl_seconds) },
       true)
  | none =>
      (freshDf,
       { s with last_fetch_time := some now,
                cached_gkg_df := some freshDf,
                cache_expires_at := some (now + s.cache_ttl_seconds) },
       true)

/-- A disruption record as produced by
`GDELTService.filter_disruption_themes` (gdelt_service.py, lines 205-216). -/
structure Disruption where
  themes : List String
  raw_themes : String
  locations : List String
  multiplier : ℚ
  reason : String
  source : String
  article_url : String
  event_time : String
deriving Repr, DecidableEq

/-- One step of Python's `max(matched_events, key=multiplier)`: keep the
current best unless the next event's multiplier is strictly larger (so the
first maximal element wins). -/
def maxEventStep (best e : Disruption) : Disruption :=
  if best.multiplier < e.multiplier then e else best

/-- The location-match predicate of `get_city_risk`: some entry of the
record's location list contains the queried city, case-insensitively. -/
def cityMatches (city : String) (e : Disruption) : Bool :=
  e.locations.any fun loc => strIsSubstrOf (strLower city) (strLower loc)

/-- Embeds `GDELTService.get_city_risk` (gdelt_service.py, lines 237-264),
with the disruption list (the result of `get_disruptions_from_gdelt`) passed
explicitly: empty city name → `None`; filter the records whose location list
matches the city case-insensitively; when none match → `None`; otherwise
return the matched event with the highest multiplier (first one on ties),
tagged with source `"gdelt"`, its themes and its article reference. -/
def get_city_risk (disruptions : List Disruption) (city_name : String) :
    Option RiskSignal :=
  if city_name = "" then none
  else
    match disruptions.filter (cityMatches city_name) with
    | [] => none
    | e :: rest =>
      let top := rest.foldl maxEventStep e
      some { city := city_name, multiplier := top.multiplier,
             reason := top.reason, source := "gdelt",
             themes := top.themes, article_url := some top.article_url }

/-- A disruption alert record (mitigation_solver.py legacy path;
`target_route_id` is coerced to a list by the source when scalar). -/
structure DisruptionAlert where
  target_route_id : List ℕ
  impact_type : String
  cost_multiplier : ℚ
  severity_score : ℚ
deriving Repr, DecidableEq

/-- Multiply the cost stored under `rid` by `mult`, leaving every other
entry — and an absent `rid` — untouched.  This is the body
`if r_id in current_cost_map: current_cost_map[r_id] = old_cost *
multiplier` (mitigation_solver.py, lines 223-227) and likewise the guardian
update `current_cost_map[primary_route_id] *= multiplier` (line 133). -/
def costMapMultiply (m : List (ℕ × ℚ)) (rid : ℕ) (mult : ℚ) :
    List (ℕ × ℚ) :=
  m.map fun kv => if kv.1 = rid then (kv.1, kv.2 * mult) else kv

/-- Apply one alert of the legacy solver: multiply each route id of its
target list that is present in the cost map (lines 218-227). -/
def applyAlert (m : List (ℕ × ℚ)) (a : DisruptionAlert) : List (ℕ × ℚ) :=
  a.target_route_id.foldl
    (fun acc rid => costMapMultiply acc rid a.cost_multiplier) m

/-- Apply every alert of the list in order (the `for alert in
alert_json_list` loop of `solve_mitigation_plan`). -/
def applyAlerts (m : List (ℕ × ℚ)) (alerts : List DisruptionAlert) :
    List (ℕ × ℚ) :=
  alerts.foldl applyAlert m

/-- The guardian risk application (`solve_guardian_plan`, lines 119-133):
when a risk signal is present, only the destination's primary route's cost
is multiplied; `primary_route_id = none` models a falsy
`get_primary_route_for_city` result, in which case nothing changes. -/
def apply_guardian_risk (base : List (ℕ × ℚ)) (primary_route_id : Option ℕ)
    (mult : ℚ) : List (ℕ × ℚ) :=
  match primary_route_id with
  | some p => costMapMultiply base p mult
  | none => base

/-- The total factor by which one alert scales route `r`: its multiplier
once per occurrence of `r` in the alert's target list. -/
def alertFactor (r : ℕ) (a : DisruptionAlert) : ℚ :=
  a.cost_multiplier ^ (a.target_route_id.count r)

/-- The total factor by which an alert list scales route `r`. -/
def alertsFactor (r : ℕ) (alerts : List DisruptionAlert) : ℚ :=
  (alerts.map (alertFactor r)).prod

/-- Embeds `CSV_DATA_BACKUP` (mitigation_solver.py, lines 20-30) as
`(route id, distance in km, cost per km)` rows; the decimal distances are
written as exact rationals (157.75 = 631/4, 159.62 = 7981/50, 157.27 =
15727/100, 159.25 = 637/4, 159.88 = 3997/25, 159.61 = 15961/100). -/
def CSV_DATA_BACKUP : List (ℕ × ℚ × ℚ) :=
  [(1, 631/4, 2), (2, 7981/50, 2), (3, 15727/100, 2), (4, 637/4, 2),
   (5, 3997/25, 2), (6, 15961/100, 2), (7, 159, 2), (8, 158, 2)]

/-- The `base_cost_map` of `solve_mitigation_plan` (lines 210-212) computed
from the backup dataset: each route id appears exactly once, so the source's
`groupby(...).mean()` is the identity and `Unit_Cost = distance * rate`. -/
def base_cost_map_backup : List (ℕ × ℚ) :=
  CSV_DATA_BACKUP.map fun row => (row.1, row.2.1 * row.2.2)

/-- Modelled from the spec: `network_config.route_map`, imported by the
legacy solver, is not among the sources (only its callers are).  The spec's
example scenario fixes Route 1 and Route 4 as the two routes serving
"Boston"; the repository's tests pin Route 2 (Warehouse_North → New York)
with sibling Route 7, Route 5 (Warehouse_North → Philadelphia) with sibling
Route 8, and Routes 3/6 serving Chicago.  Entries are
`(route id, (source warehouse, destination))`. -/
def route_map : List (ℕ × String × String) :=
  [(1, ("Warehouse_North", "Boston")), (2, ("Warehouse_North", "New York")),
   (3, ("Warehouse_North", "Chicago")), (4, ("Warehouse_South", "Boston")),
   (5, ("Warehouse_North", "Philadelphia")),
   (6, ("Warehouse_South", "Chicago")), (7, ("Warehouse_South", "New York")),
   (8, ("Warehouse_South", "Philadelphia"))]

/-- The option list for one destination in the legacy solver (line 237):
route ids of `route_map` whose destination matches. -/
def optionsFor (dest : String) : List ℕ :=
  (route_map.filter fun e => e.2.2 = dest).map Prod.fst

/-- The legacy solver's destination set (line 233), iterated in first
occurrence order (the per-destination assignments are disjoint, so plan
contents do not depend on Python's set iteration order). -/
def destinations : List String :=
  route_map.foldl
    (fun acc e => if e.2.2 ∈ acc then acc else acc ++ [e.2.2]) []

/-- Python's `min(o :: os, key=cost)`: fold keeping the current minimum and
replacing it only on strictly smaller cost, so the first minimum wins. -/
def pyMin (cost : ℕ → ℚ) (o : ℕ) (os : List ℕ) : ℕ :=
  os.foldl (fun best rid => if cost rid < cost best then rid else best) o

/-- Quantity assignment of the legacy solver (lines 250-252): the winner
gets the destination's demand, every other option 0. -/
def planAssign (options : List ℕ) (winner : ℕ) (qty : ℕ) : List (ℕ × ℕ) :=
  options.map fun rid => (rid, if rid = winner then qty else 0)

/-- Base unit cost with the source's missing-key default
(`base_cost_map.get(r, 99999)`). -/
def baseCost (r : ℕ) : ℚ := (base_cost_map_backup.lookup r).getD 99999

/-- Current (alert-adjusted) unit cost with the source's missing-key
default (`current_cost_map.get(r, 99999)`). -/
def currentCost (alerts : List DisruptionAlert) (r : ℕ) : ℚ :=
  ((applyAlerts base_cost_map_backup alerts).lookup r).getD 99999

/-- Embeds `solve_mitigation_plan` (mitigation_solver.py, lines 193-254)
over the backup cost dataset: apply the alerts' multipliers, then per
destination pick the cheapest-original route (`winner_base`) and the
cheapest-now route (`winner_new`) and assign the destination's demand
(`DEMAND_REQ.get(dest, 0)`, passed as the `demand` function since
`network_config.DEMAND_REQ` is not among the sources). -/
def solve_mitigation_plan (demand : String → ℕ)
    (alerts : List DisruptionAlert) : List (ℕ × ℕ) × List (ℕ × ℕ) :=
  destinations.foldl
    (fun plans dest =>
      match optionsFor dest with
      | [] => plans
      | o :: os =>
        let qty := demand dest
        (plans.1 ++ planAssign (o :: os) (pyMin baseCost o os) qty,
         plans.2 ++ planAssign (o :: os) (pyMin (currentCost alerts) o os) qty))
    ([], [])

/-- The C1 scenario's disruption alert: cost multiplier 10.0 targeting
Route 1 only. -/
def bostonAlert : DisruptionAlert := ⟨[1], "disruption", 10, 9⟩

/-- A route shape as stored in the dynamic route map: 2-tuple `(src, dst)`
or 3-tuple `(src, hub, dst)`. -/
inductive RouteTuple where
  | direct (src dst : String)
  | multihop (src hub dst : String)
deriving Repr, DecidableEq

/-- The destination of a route tuple (`route_tuple[-1]`). -/
def RouteTuple.dest : RouteTuple → String
  | .direct _ d => d
  | .multihop _ _ d => d

/-- The displayed route type (`"Direct"` / `"Multi-Hop"`, by tuple
length). -/
def RouteTuple.typeName : RouteTuple → String
  | .direct .. => "Direct"
  | .multihop .. => "Multi-Hop"

/-- The displayed route path (`f"{src} → {dst}"` respectively
`f"{src} → {hub} → {dst}"`). -/
def RouteTuple.pathName : RouteTuple → String
  | .direct s d => s ++ " → " ++ d
  | .multihop s h d => s ++ " → " ++ h ++ " → " ++ d

/-- The five status values emitted by `generate_impact_report`
(mitigation_solver.py, lines 409-423); the source prefixes each with an
emoji glyph. -/
inductive RouteStatus where
  | stopped
  | activated
  | unchanged
  | available
  | adjusted
deriving Repr, DecidableEq

/-- The status if-chain of `generate_impact_report` (lines 409-423);
quantities are the plans' integer quantities (non-negative). -/
def statusOf (old_qty new_qty : ℕ) : RouteStatus :=
  if 0 < old_qty ∧ new_qty = 0 then .stopped
  else if old_qty = 0 ∧ 0 < new_qty then .activated
  else if old_qty = new_qty ∧ 0 < old_qty then .unchanged
  else if old_qty = 0 ∧ new_qty = 0 then .available
  else .adjusted

/-- One row of the impact report (lines 425-434). -/
structure ReportRow where
  route_id : ℕ
  route_type : String
  route_path : String
  cost_per_unit : ℚ
  initial_qty : ℕ
  final_qty : ℕ
  status : RouteStatus
deriving Repr, DecidableEq

/-- Append `rid` to the group keyed `d`, creating the group at the end on
first occurrence — Python dict-of-lists insertion semantics of the
`dest_groups` loop (lines 378-383). -/
def insertGroup (groups : List (String × List ℕ)) (d : String) (rid : ℕ) :
    List (String × List ℕ) :=
  match groups with
  | [] => [(d, [rid])]
  | (k, rs) :: rest =>
    if k = d then (k, rs ++ [rid]) :: rest
    else (k, rs) :: insertGroup rest d rid

/-- The `dest_groups` dict (destination → route ids, in first-occurrence
order of the route map). -/
def destGroups (rm : List (ℕ × RouteTuple)) : List (String × List ℕ) :=
  rm.foldl (fun gs e => insertGroup gs e.2.dest e.1) []

/-- The optional destination filter of `generate_impact_report` (lines
386-387); `some ""` is falsy in Python and filters nothing. -/
def filteredGroups (rm : List (ℕ × RouteTuple)) (fd : Option String) :
    List (String × List ℕ) :=
  match fd with
  | none => destGroups rm
  | some f =>
    if f = "" then destGroups rm
    else (destGroups rm).filter fun g => g.1 = f

/-- `sorted(routes)` — ascending, stable. -/
def sortNat (l : List ℕ) : List ℕ := l.insertionSort (· ≤ ·)

/-- Build one report row for `rid` (lines 391-434): quantities come from
`initial_plan.get(rid, 0)` / `mitigation_plan.get(rid, 0)` (the plans are
passed as total functions with that default), the per-unit cost from
`get_route_cost(rid, df_costs)` (dynamic_network is not among the sources,
so the cost is passed as a function), and the tuple from
`full_route_map[rid]` (always present for emitted ids; absent ids get a
dummy tuple). -/
def reportRowFor (rm : List (ℕ × RouteTuple)) (cost : ℕ → ℚ)
    (initial_plan mitigation_plan : ℕ → ℕ) (rid : ℕ) : ReportRow :=
  let rt := (rm.lookup rid).getD (.direct "" "")
  { route_id := rid, route_type := rt.typeName, route_path := rt.pathName,
    cost_per_unit := cost rid,
    initial_qty := initial_plan rid, final_qty := mitigation_plan rid,
    status := statusOf (initial_plan rid) (mitigation_plan rid) }

/-- Embeds `generate_impact_report` (mitigation_solver.py, lines 363-436):
group all routes of the (optionally filtered) route map by destination,
then emit one row per route in ascending route-id order within each
group. -/
def generate_impact_report (rm : List (ℕ × RouteTuple)) (cost : ℕ → ℚ)
    (initial_plan mitigation_plan : ℕ → ℕ) (fd : Option String) :
    List ReportRow :=
  (filteredGroups rm fd).flatMap fun g =>
    (sortNat g.2).map (reportRowFor rm cost initial_plan mitigation_plan)

/-- One route-analysis record as built by `select_routes_with_llm`
(mitigation_solver.py, lines 298-304) and consumed by
`rule_based_route_selection`; `rtype` embeds the dict key `"type"`. -/
structure RouteOption where
  route_id : ℕ
  rtype : String
  path : String
  cost_per_unit : ℚ
  total_cost_for_full_qty : ℚ
deriving Repr, DecidableEq

/-- One entry of the result's `selected_routes` list (lines 333-348). -/
structure SelectedRoute where
  route_id : ℕ
  quantity : ℕ
  role : String
  reason : String
deriving Repr, DecidableEq

/-- The result dict of `rule_based_route_selection` (lines 356-360). -/
structure RouteSelection where
  selected_routes : List SelectedRoute
  total_cost : ℚ
  analysis : String
deriving Repr, DecidableEq

/-- Python `f"{x:.2f}"` for the non-negative exact-cent amounts the solver
prints: integer cents are `⌊100x + 1/2⌋`, written over the numerator and
denominator so that it evaluates by kernel reduction (`Int` division
truncates toward zero, which on these non-negative values is the floor). -/
def fmt2 (q : ℚ) : String :=
  let cents : ℤ := (200 * q.num + (q.den : ℤ)) / (2 * (q.den : ℤ))
  let n : ℕ := cents.toNat
  toString (n / 100) ++ "." ++
    (if n % 100 < 10 then "0" ++ toString (n % 100) else toString (n % 100))

/-- Python truthiness of the `budget` argument (`if budget:`): present and
nonzero. -/
def budgetTruthy : Option ℚ → Bool
  | none => false
  | some b => decide (b ≠ 0)

/-- `sorted(route_options, key=lambda r: r["cost_per_unit"])` — ascending
and stable. -/
def sortByCost (l : List RouteOption) : List RouteOption :=
  l.insertionSort fun a b => a.cost_per_unit ≤ b.cost_per_unit

/-- Embeds `rule_based_route_selection` (mitigation_solver.py, lines
315-360): sort by unit cost; when a truthy budget is supplied keep only the
options whose total cost is within it; when nothing remains fall back to
the full sorted list; the head becomes the primary selection (full
quantity), the next option if any becomes a zero-quantity backup; the
analysis string reports "Within budget of $<budget>." whenever a budget was
supplied.  `none` models the source's `IndexError` on an empty option
list; `risk_factor` is accepted and ignored exactly as in the source. -/
def rule_based_route_selection (route_options : List RouteOption)
    (quantity : ℕ) (budget : Option ℚ) (risk_factor : ℚ) :
    Option RouteSelection :=
  let sorted0 := sortByCost route_options
  let sorted1 :=
    if budgetTruthy budget then
      sorted0.filter fun r => r.total_cost_for_full_qty ≤ budget.getD 0
    else sorted0
  let sorted_routes :=
    if sorted1.isEmpty then sortByCost route_options else sorted1
  match sorted_routes with
  | [] => none
  | primary :: rest =>
    let selected :=
      [(⟨primary.route_id, quantity, "primary",
          "Most cost-efficient: $" ++ fmt2 primary.cost_per_unit ++
            "/unit via " ++ primary.path⟩ : SelectedRoute)]
    let selected :=
      if rest.isEmpty then selected
      else selected ++
        [⟨(rest.headD primary).route_id, 0, "backup",
            "Redundancy option: $" ++
              fmt2 (rest.headD primary).cost_per_unit ++ "/unit"⟩]
    let analysis :=
      "Cost-optimized selection: Chose " ++ primary.rtype ++ " route " ++
        toString primary.route_id ++ " ($" ++
        fmt2 primary.total_cost_for_full_qty ++ " total) as primary. " ++
        (if budgetTruthy budget then
          "Within budget of $" ++ fmt2 (budget.getD 0) ++ ". "
        else "") ++
        (if rest.isEmpty then ""
        else "Route " ++ toString (rest.headD primary).route_id ++
          " available as backup.")
    some ⟨selected, primary.total_cost_for_full_qty, analysis⟩

instance : IsTotal RouteOption fun a b => a.cost_per_unit ≤ b.cost_per_unit :=
  ⟨fun a b => le_total a.cost_per_unit b.cost_per_unit⟩

instance : IsTrans RouteOption fun a b => a.cost_per_unit ≤ b.cost_per_unit :=
  ⟨fun _ _ _ hab hbc => le_trans hab hbc⟩

/-! ### Theorems -/

example : GDELTService.compute_multiplier "env_flood near port" = 20 := by decide

example : GDELTService.compute_multiplier "PORT congestion" = 10 := by decide

example : GDELTService.compute_multiplier "general strike" = 5 := by decide

example : GDELTService.compute_multiplier "quiet day" = 2 := by decide

/-- C3: for every theme string, the live-feed multiplier computation returns
20.0 when the upper-cased text contains NATURAL_DISASTER, ENV_FLOOD or
ENV_STORM; otherwise 10.0 when it contains TRANSPORTATION, PORT, SHIPPING or
LOGISTICS; otherwise 5.0 when it contains STRIKE; otherwise 2.0. -/
theorem gdelt_multiplier_theme_mapping (t : String) :
    (GDELTService.compute_multiplier t = 20 ↔
      (strIsSubstrOf "NATURAL_DISASTER" (strUpper t) = true ∨
       strIsSubstrOf "ENV_FLOOD" (strUpper t) = true ∨
       strIsSubstrOf "ENV_STORM" (strUpper t) = true)) ∧
    (GDELTService.compute_multiplier t = 10 ↔
      (¬(strIsSubstrOf "NATURAL_DISASTER" (strUpper t) = true ∨
         strIsSubstrOf "ENV_FLOOD" (strUpper t) = true ∨
         strIsSubstrOf "ENV_STORM" (strUpper t) = true) ∧
       (strIsSubstrOf "TRANSPORTATION" (strUpper t) = true ∨
        strIsSubstrOf "PORT" (strUpper t) = true ∨
        strIsSubstrOf "SHIPPING" (strUpper t) = true ∨
        strIsSubstrOf "LOGISTICS" (strUpper t) = true))) ∧
    (GDELTService.compute_multiplier t = 5 ↔
      (¬(strIsSubstrOf "NATURAL_DISASTER" (strUpper t) = true ∨
         strIsSubstrOf "ENV_FLOOD" (strUpper t) = true ∨
         strIsSubstrOf "ENV_STORM" (strUpper t) = true) ∧
       ¬(strIsSubstrOf "TRANSPORTATION" (strUpper t) = true ∨
         strIsSubstrOf "PORT" (strUpper t) = true ∨
         strIsSubstrOf "SHIPPING" (strUpper t) = true ∨
         strIsSubstrOf "LOGISTICS" (strUpper t) = true) ∧
       strIsSubstrOf "STRIKE" (strUpper t) = true)) ∧
    (GDELTService.compute_multiplier t = 2 ↔
      (¬(strIsSubstrOf "NATURAL_DISASTER" (strUpper t) = true ∨
         strIsSubstrOf "ENV_FLOOD" (strUpper t) = true ∨
         strIsSubstrOf "ENV_STORM" (strUpper t) = true) ∧
       ¬(strIsSubstrOf "TRANSPORTATION" (strUpper t) = true ∨
         strIsSubstrOf "PORT" (strUpper t) = true ∨
         strIsSubstrOf "SHIPPING" (strUpper t) = true ∨
         strIsSubstrOf "LOGISTICS" (strUpper t) = true) ∧
       ¬(strIsSubstrOf "STRIKE" (strUpper t) = true))) := by
  simp only [GDELTService.compute_multiplier, List.any_cons, List.any_nil,
    Bool.or_false, Bool.or_eq_true]
  split_ifs with h1 h2 h3 <;> simp_all

example :
    scan_news_for_risk true (.ok ["Mumbai port fire reported", "Delhi calm"])
      " Mumbai" = some ⟨"mumbai", 10, "FIRE reported in mumbai"⟩ := by decide

example :
    scan_news_for_risk true (.ok ["Delhi calm"]) "Mumbai" = none := by decide

lemma riskKeywordFold_fst (city text : String) :
    ∀ (kws : List (String × ℚ)) (acc : ℚ × Option String),
      (kws.foldl (riskKeywordStep city text) acc).1 =
        ((kws.filter (fun kw => strIsSubstrOf kw.1 text)).map Prod.snd).foldl
          max acc.1 := by
  intro kws
  induction kws with
  | nil => intro acc; rfl
  | cons k rest ih =>
    intro acc
    by_cases hk : strIsSubstrOf k.1 text
    · by_cases hlt : acc.1 < k.2
      · simp [List.foldl_cons, riskKeywordStep, hk, hlt, ih,
          max_eq_right (le_of_lt hlt)]
      · simp [List.foldl_cons, riskKeywordStep, hk, hlt, ih,
          max_eq_left (not_lt.mp hlt)]
    · simp [List.foldl_cons, riskKeywordStep, hk, ih]

lemma riskRecordFold_fst (city : String) :
    ∀ (ms : List String) (acc : ℚ × Option String),
      (ms.foldl (riskRecordStep city) acc).1 =
        (ms.flatMap textRiskWeights).foldl max acc.1 := by
  intro ms
  induction ms with
  | nil => intro acc; rfl
  | cons m rest ih =>
    intro acc
    simp only [List.foldl_cons, List.flatMap_cons, List.foldl_append, ih,
      riskRecordStep, riskKeywordFold_fst, textRiskWeights]

lemma riskKeywordFold_snd (city text : String) :
    ∀ (kws : List (String × ℚ)) (acc : ℚ × Option String),
      kws.foldl (riskKeywordStep city text) acc = acc ∨
        ∃ kw ∈ kws, strIsSubstrOf kw.1 text = true ∧
          kws.foldl (riskKeywordStep city text) acc =
            (kw.2, some (riskReasonFor city kw.1)) := by
  intro kws
  induction kws with
  | nil => intro acc; exact Or.inl rfl
  | cons k rest ih =>
    intro acc
    rcases ih (riskKeywordStep city text acc k) with h | ⟨kw, hmem, hocc, heq⟩
    · simp only [List.foldl_cons, h]
      by_cases hk : strIsSubstrOf k.1 text
      · by_cases hlt : acc.1 < k.2
        · exact Or.inr ⟨k, List.mem_cons_self .., hk,
            by simp [riskKeywordStep, hk, hlt]⟩
        · exact Or.inl (by simp [riskKeywordStep, hk, hlt])
      · exact Or.inl (by simp [riskKeywordStep, hk])
    · exact Or.inr ⟨kw, List.mem_cons_of_mem _ hmem, hocc,
        by simp only [List.foldl_cons, heq]⟩

lemma riskRecordFold_snd (city : String) :
    ∀ (ms : List String) (acc : ℚ × Option String),
      ms.foldl (riskRecordStep city) acc = acc ∨
        ∃ m ∈ ms, ∃ kw ∈ RISK_WEIGHTS, strIsSubstrOf kw.1 m = true ∧
          ms.foldl (riskRecordStep city) acc =
            (kw.2, some (riskReasonFor city kw.1)) := by
  intro ms
  induction ms with
  | nil => intro acc; exact Or.inl rfl
  | cons m rest ih =>
    intro acc
    rcases ih (riskRecordStep city acc m) with h | ⟨m', hm', kw, hkw, hocc, heq⟩
    · simp only [List.foldl_cons, h]
      rcases riskKeywordFold_snd city m RISK_WEIGHTS acc with h2 | ⟨kw, hkw, hocc, heq⟩
      · exact Or.inl h2
      · exact Or.inr ⟨m, List.mem_cons_self .., kw, hkw, hocc, heq⟩
    · exact Or.inr ⟨m', List.mem_cons_of_mem _ hm', kw, hkw, hocc,
        by simp only [List.foldl_cons, heq]⟩

lemma qfoldl_max_init_le : ∀ (l : List ℚ) (a : ℚ), a ≤ l.foldl max a := by
  intro l
  induction l with
  | nil => intro a; exact le_refl a
  | cons x xs ih =>
    intro a
    exact le_trans (le_max_left a x) (ih (max a x))

lemma qfoldl_max_mem_le : ∀ (l : List ℚ) (a w : ℚ), w ∈ l → w ≤ l.foldl max a := by
  intro l
  induction l with
  | nil => intro a w hw; cases hw
  | cons x xs ih =>
    intro a w hw
    rw [List.foldl_cons]
    rcases List.mem_cons.mp hw with h | h
    · subst h
      exact le_trans (le_max_right a w) (qfoldl_max_init_le xs (max a w))
    · exact ih (max a x) w h

lemma qfoldl_max_cases : ∀ (l : List ℚ) (a : ℚ),
    l.foldl max a = a ∨ l.foldl max a ∈ l := by
  intro l
  induction l with
  | nil => intro a; exact Or.inl rfl
  | cons x xs ih =>
    intro a
    rcases ih (max a x) with h | h
    · rcases max_choice a x with hm | hm
      · exact Or.inl (by rw [List.foldl_cons, h, hm])
      · exact Or.inr (by rw [List.foldl_cons, h, hm]; exact List.mem_cons_self ..)
    · exact Or.inr (List.mem_cons_of_mem x h)

lemma scan_ok_eq (records : List String) (tc : String) :
    scan_news_for_risk true (.ok records) tc =
      (if (matchingRecords records (strLower (strStrip tc))).isEmpty then none
       else if 1 < ((matchingRecords records (strLower (strStrip tc))).foldl
           (riskRecordStep (strLower (strStrip tc))) (1, none)).1 then
         some ⟨strLower (strStrip tc),
           ((matchingRecords records (strLower (strStrip tc))).foldl
             (riskRecordStep (strLower (strStrip tc))) (1, none)).1,
           (((matchingRecords records (strLower (strStrip tc))).foldl
             (riskRecordStep (strLower (strStrip tc))) (1, none)).2).getD ""⟩
       else none) := rfl

lemma risk_weights_two_le : ∀ p ∈ RISK_WEIGHTS, (2 : ℚ) ≤ p.2 := by decide

lemma textRiskWeights_two_le {w : ℚ} {text : String}
    (h : w ∈ textRiskWeights text) : (2 : ℚ) ≤ w := by
  rcases List.mem_map.mp h with ⟨p, hp, hw⟩
  exact hw ▸ risk_weights_two_le p (List.mem_filter.mp hp).1

lemma flatMap_textRiskWeights_two_le {w : ℚ} {ms : List String}
    (h : w ∈ ms.flatMap textRiskWeights) : (2 : ℚ) ≤ w := by
  rcases List.mem_flatMap.mp h with ⟨m, _, hw⟩
  exact textRiskWeights_two_le hw

/-- C4: the static fallback scan filters records by case-insensitive literal
substring match of the city name; over the matching records it returns the
maximum occurring keyword weight of `RISK_WEIGHTS` together with the
generated `"<KEYWORD> reported in <city>"` reason; it returns `none` when no
record matches the city or no keyword of the table occurs in any matching
record. -/
theorem risk_monitor_scan_spec (records : List String) (tc : String) :
    (∀ text, text ∈ matchingRecords records (strLower (strStrip tc)) ↔
        (text ∈ records.map strLower ∧
         strIsSubstrOf (strLower (strStrip tc)) text = true)) ∧
    (scan_news_for_risk true (.ok records) tc = none ↔
        (matchingRecords records (strLower (strStrip tc)) = [] ∨
         (matchingRecords records (strLower (strStrip tc))).flatMap
           textRiskWeights = [])) ∧
    (∀ a, scan_news_for_risk true (.ok records) tc = some a →
        a.city = strLower (strStrip tc) ∧
        a.multiplier ∈ (matchingRecords records
          (strLower (strStrip tc))).flatMap textRiskWeights ∧
        (∀ w ∈ (matchingRecords records (strLower (strStrip tc))).flatMap
            textRiskWeights, w ≤ a.multiplier) ∧
        (∃ kw, (kw, a.multiplier) ∈ RISK_WEIGHTS ∧
          (∃ m ∈ matchingRecords records (strLower (strStrip tc)),
            strIsSubstrOf kw m = true) ∧
          a.reason = riskReasonFor (strLower (strStrip tc)) kw)) := by
  rw [scan_ok_eq]
  generalize strLower (strStrip tc) = city
  generalize hMdef : matchingRecords records city = M
  generalize hWdef : M.flatMap textRiskWeights = W
  generalize hresdef : M.foldl (riskRecordStep city) (1, none) = res
  have hfold : res.1 = W.foldl max 1 := by
    rw [← hresdef, ← hWdef]
    exact riskRecordFold_fst city M (1, none)
  refine ⟨?_, ?_, ?_⟩
  · intro text
    rw [← hMdef]
    unfold matchingRecords
    rw [List.mem_filter]
  · by_cases hMe : M = []
    · simp [hMe]
    · have hne : M.isEmpty = false := by simp [List.isEmpty_iff, hMe]
      by_cases hWe : W = []
      · have h1 : res.1 = 1 := by rw [hfold, hWe]; rfl
        simp [hne, h1, hWe]
      · rcases List.exists_mem_of_ne_nil W hWe with ⟨w, hw⟩
        have h2w : (2 : ℚ) ≤ w := flatMap_textRiskWeights_two_le (hWdef ▸ hw)
        have hle : w ≤ res.1 := by rw [hfold]; exact qfoldl_max_mem_le W 1 w hw
        have h1lt : 1 < res.1 := lt_of_lt_of_le (by norm_num : (1:ℚ) < 2)
          (le_trans h2w hle)
        simp [hne, h1lt, hMe, hWe]
  · intro a ha
    by_cases hMe : M = []
    · simp [hMe] at ha
    · have hne : M.isEmpty = false := by simp [List.isEmpty_iff, hMe]
      simp only [hne, Bool.false_eq_true, if_false] at ha
      by_cases h1lt : 1 < res.1
      · simp only [h1lt, if_true] at ha
        have hinj : RiskAlert.mk city res.1 (res.2.getD "") = a :=
          Option.some.inj ha
        subst hinj
        have hmem : res.1 ∈ W := by
          rcases qfoldl_max_cases W 1 with h | h
          · rw [hfold] at h1lt; rw [h] at h1lt; exact absurd h1lt (lt_irrefl 1)
          · rw [hfold]; exact h
        refine ⟨rfl, hmem, ?_, ?_⟩
        · intro w hw
          show w ≤ res.1
          rw [hfold]
          exact qfoldl_max_mem_le W 1 w hw
        · rcases riskRecordFold_snd city M (1, none) with h |
            ⟨m, hm, ⟨kwn, kww⟩, hkw, hocc, heq⟩
          · rw [hresdef] at h
            rw [h] at h1lt
            exact absurd h1lt (by norm_num)
          · rw [hresdef] at heq
            refine ⟨kwn, ?_, ⟨m, hm, hocc⟩, ?_⟩
            · show (kwn, res.1) ∈ RISK_WEIGHTS
              rw [heq]
              exact hkw
            · show res.2.getD "" = riskReasonFor city kwn
              rw [heq]
              rfl
      · simp [h1lt] at ha

/-- Closed witness for the C4 theorem at a concrete dataset: the record
"Mumbai port fire reported" matches city " Mumbai" and yields weight 10. -/
theorem risk_monitor_scan_spec_witness :
    scan_news_for_risk true
        (.ok ["Mumbai port fire reported", "Delhi calm"]) " Mumbai" =
      some ⟨"mumbai", 10, "FIRE reported in mumbai"⟩ ∧
    (10 : ℚ) ∈ (matchingRecords ["Mumbai port fire reported", "Delhi calm"]
        (strLower (strStrip " Mumbai"))).flatMap textRiskWeights := by
  refine ⟨by decide, ?_⟩
  have h := ((risk_monitor_scan_spec
      ["Mumbai port fire reported", "Delhi calm"] " Mumbai").2.2
      ⟨"mumbai", 10, "FIRE reported in mumbai"⟩ (by decide)).2.1
  exact h

/-- C10: the static risk scan is total — a missing news dataset file and any
failure while loading or scanning yield `none` rather than an error (the
Lean return type `Option RiskAlert` forecloses raising) — and every returned
signal reports the lower-cased, whitespace-stripped form of the caller's
city string. -/
theorem risk_monitor_total_and_city_normalized (fe : Bool)
    (lr : Except Unit (List String)) (tc : String) :
    (fe = false → scan_news_for_risk fe lr tc = none) ∧
    (∀ e, lr = .error e → scan_news_for_risk fe lr tc = none) ∧
    (∀ a, scan_news_for_risk fe lr tc = some a →
        a.city = strLower (strStrip tc)) := by
  refine ⟨?_, ?_, ?_⟩
  · intro h
    subst h
    rfl
  · intro e h
    subst h
    cases fe <;> rfl
  · intro a ha
    cases fe
    · simp [scan_news_for_risk] at ha
    · cases lr with
      | error e => simp [scan_news_for_risk] at ha
      | ok records =>
        rw [scan_ok_eq] at ha
        split_ifs at ha
        rw [← Option.some.inj ha]

lemma retryLoop_all_fail (E R : Type) (attempts : ℕ)
    (responses : ℕ → Except E R) (errs : ℕ → E) :
    ∀ (k i : ℕ) (lastErr : Option E), 0 < k →
      (∀ j, i ≤ j → j < i + k → responses j = .error (errs j)) →
      retryLoop E R attempts responses k i lastErr =
        .error ⟨attempts, some (errs (i + k - 1))⟩ := by
  intro k
  induction k with
  | zero => intro i lastErr h; cases h
  | succ k ih =>
    intro i lastErr _ hall
    have hi : responses i = .error (errs i) := hall i (le_refl i) (by omega)
    rcases Nat.eq_zero_or_pos k with hk | hk
    · subst hk
      simp only [retryLoop, hi]
      have : i + 1 - 1 = i := by omega
      rw [this]
    · have hrec := ih (i + 1) (some (errs i)) hk
        (fun j hj1 hj2 => hall j (by omega) (by omega))
      simp only [retryLoop, hi, hrec]
      have : i + 1 + k - 1 = i + (k + 1) - 1 := by omega
      rw [this]

/-- C5: a network fetch is attempted up to `max(max_retries, 1)` times (at
least once); if every attempt fails the raised error carries the last
underlying failure; when live lookup is enabled and raises, risk resolution
falls back to the static monitor instead of propagating, and when the static
monitor also finds nothing the resolution returns `none` (no error). -/
theorem gdelt_retry_and_fallback_spec (E R : Type) (max_retries : ℕ)
    (responses : ℕ → Except E R) (errs : ℕ → E)
    (staticScan : Option RiskAlert) :
    1 ≤ numAttempts max_retries ∧
    ((∀ i, 1 ≤ i → i ≤ numAttempts max_retries →
        responses i = .error (errs i)) →
      http_get_with_retry E R max_retries responses =
        .error ⟨numAttempts max_retries,
                some (errs (numAttempts max_retries))⟩) ∧
    (resolve_risk_data true (.error ()) staticScan =
      staticScan.map fun a =>
        { city := a.city, multiplier := a.multiplier, reason := a.reason,
          source := "static", themes := [], article_url := none }) ∧
    (resolve_risk_data true (.error ()) none = none) := by
  refine ⟨le_max_right _ 1, ?_, rfl, rfl⟩
  intro hall
  unfold http_get_with_retry
  have h := retryLoop_all_fail E R (numAttempts max_retries) responses errs
    (numAttempts max_retries) 1 none (by simp [numAttempts])
    (fun j hj1 hj2 => hall j hj1 (by omega))
  rw [h]
  have : 1 + numAttempts max_retries - 1 = numAttempts max_retries := by omega
  rw [this]

/-- Closed witness for the C5 theorem: two failing attempts with
`max_retries = 2` produce the wrapped error carrying the second failure, and
the resolver with a failing live path and an empty static scan yields
`none`. -/
theorem gdelt_retry_and_fallback_witness :
    http_get_with_retry String ℕ 2 (fun i => .error (toString i)) =
      .error ⟨2, some "2"⟩ ∧
    resolve_risk_data true (.error ()) none = none := by
  have h := gdelt_retry_and_fallback_spec String ℕ 2
    (fun i => .error (toString i)) (fun i => toString i) none
  exact ⟨h.2.1 (fun i _ _ => rfl), h.2.2.2⟩

/-- C6: the TTL is configurable with default 900 seconds (15 minutes); a
non-forced call while the stored expiry is in the future and a dataframe is
cached returns the cached data with no fetch; a fetching call stores its
dataframe and sets expiry `now + ttl`, so a second non-forced call before
that instant returns the first call's data without fetching (at most one
fetch per TTL window); a call at or after the stored expiry fetches. -/
theorem gdelt_cache_ttl_spec (Df : Type) :
    (defaultCacheTtl = 900 ∧ defaultCacheTtl = 15 * 60) ∧
    (∀ (s : ServiceState Df) (t : ℚ) (d fresh : Df),
        s.cached_gkg_df = some d → is_cache_valid Df s t = true →
        fetch_latest_gkg Df s t false fresh = (d, s, false)) ∧
    (∀ (s s' : ServiceState Df) (t : ℚ) (d fresh : Df),
        fetch_latest_gkg Df s t false fresh = (d, s', true) →
        s'.cache_expires_at = some (t + s.cache_ttl_seconds) ∧
        s'.cached_gkg_df = some d ∧
        s'.cache_ttl_seconds = s.cache_ttl_seconds) ∧
    (∀ (s s' : ServiceState Df) (t1 t2 : ℚ) (d fresh1 fresh2 : Df),
        fetch_latest_gkg Df s t1 false fresh1 = (d, s', true) →
        t2 < t1 + s.cache_ttl_seconds →
        fetch_latest_gkg Df s' t2 false fresh2 = (d, s', false)) ∧
    (∀ (s : ServiceState Df) (t e : ℚ) (fresh : Df),
        s.cache_expires_at = some e → e ≤ t →
        (fetch_latest_gkg Df s t false fresh).2.2 = true) := by
  have hupd : ∀ (s s' : ServiceState Df) (t : ℚ) (d fresh : Df),
      fetch_latest_gkg Df s t false fresh = (d, s', true) →
      s'.cache_expires_at = some (t + s.cache_ttl_seconds) ∧
      s'.cached_gkg_df = some d ∧
      s'.cache_ttl_seconds = s.cache_ttl_seconds := by
    intro s s' t d fresh h
    unfold fetch_latest_gkg at h
    rcases hc : s.cached_gkg_df with _ | df
    · rw [hc] at h
      obtain ⟨h1, h2, _⟩ := Prod.mk.injEq .. ▸ h
      injection h with hd hrest
      injection hrest with hs _
      subst hd
      rw [← hs]
      exact ⟨rfl, rfl, rfl⟩
    · rw [hc] at h
      split_ifs at h with hcond
      · injection h with _ hrest
        injection hrest with _ hb
        cases hb
      · injection h with hd hrest
        injection hrest with hs _
        subst hd
        rw [← hs]
        exact ⟨rfl, rfl, rfl⟩
  have hhit : ∀ (s : ServiceState Df) (t : ℚ) (d fresh : Df),
      s.cached_gkg_df = some d → is_cache_valid Df s t = true →
      fetch_latest_gkg Df s t false fresh = (d, s, false) := by
    intro s t d fresh hc hv
    unfold fetch_latest_gkg
    rw [hc]
    simp [hv]
  refine ⟨⟨rfl, by norm_num [defaultCacheTtl]⟩, hhit, hupd, ?_, ?_⟩
  · intro s s' t1 t2 d fresh1 fresh2 h1 h2
    obtain ⟨he, hd, httl⟩ := hupd s s' t1 d fresh1 h1
    have hv : is_cache_valid Df s' t2 = true := by
      unfold is_cache_valid
      rw [he]
      simp [h2]
    exact hhit s' t2 d fresh2 hd hv
  · intro s t e fresh hexp hle
    have hv : is_cache_valid Df s t = false := by
      unfold is_cache_valid
      rw [hexp]
      simp
      linarith
    unfold fetch_latest_gkg
    rcases hc : s.cached_gkg_df with _ | df
    · rfl
    · simp [hv]

/-- Closed witness for the C6 theorem at concrete numbers: a fetch at t=0
with TTL 900 serves the cache at t=899 without fetching, and a call at
t=900 fetches again. -/
theorem gdelt_cache_ttl_witness :
    fetch_latest_gkg ℕ
      ⟨defaultCacheTtl, some 0, some 7, some 900⟩ 899 false 8 =
      (7, ⟨defaultCacheTtl, some 0, some 7, some 900⟩, false) ∧
    (fetch_latest_gkg ℕ
      ⟨defaultCacheTtl, some 0, some 7, some 900⟩ 900 false 8).2.2 = true := by
  have h := gdelt_cache_ttl_spec ℕ
  refine ⟨?_, ?_⟩
  · have hc : fetch_latest_gkg ℕ
        ⟨defaultCacheTtl, none, none, none⟩ 0 false 7 =
        (7, ⟨defaultCacheTtl, some 0, some 7, some 900⟩, true) := by
      unfold fetch_latest_gkg
      simp [defaultCacheTtl]
    exact h.2.2.2.1 ⟨defaultCacheTtl, none, none, none⟩
      ⟨defaultCacheTtl, some 0, some 7, some 900⟩ 0 899 7 7 8
      (by simpa [defaultCacheTtl] using hc) (by norm_num [defaultCacheTtl])
  · exact h.2.2.2.2 ⟨defaultCacheTtl, some 0, some 7, some 900⟩ 900 900 8
      rfl (le_refl 900)

lemma maxEventFold_mem : ∀ (l : List Disruption) (b : Disruption),
    l.foldl maxEventStep b = b ∨ l.foldl maxEventStep b ∈ l := by
  intro l
  induction l with
  | nil => intro b; exact Or.inl rfl
  | cons x xs ih =>
    intro b
    rw [List.foldl_cons]
    rcases ih (maxEventStep b x) with h | h
    · rw [h]
      unfold maxEventStep
      split_ifs
      · exact Or.inr (List.mem_cons_self ..)
      · exact Or.inl rfl
    · exact Or.inr (List.mem_cons_of_mem x h)

lemma maxEventFold_init_le : ∀ (l : List Disruption) (b : Disruption),
    b.multiplier ≤ (l.foldl maxEventStep b).multiplier := by
  intro l
  induction l with
  | nil => intro b; exact le_refl _
  | cons x xs ih =>
    intro b
    rw [List.foldl_cons]
    refine le_trans ?_ (ih (maxEventStep b x))
    unfold maxEventStep
    split_ifs with h
    · exact le_of_lt h
    · exact le_refl _

lemma maxEventFold_mem_le : ∀ (l : List Disruption) (b x : Disruption),
    x ∈ l → x.multiplier ≤ (l.foldl maxEventStep b).multiplier := by
  intro l
  induction l with
  | nil => intro b x hx; cases hx
  | cons y ys ih =>
    intro b x hx
    rw [List.foldl_cons]
    rcases List.mem_cons.mp hx with h | h
    · subst h
      refine le_trans ?_ (maxEventFold_init_le ys (maxEventStep b x))
      unfold maxEventStep
      split_ifs with h
      · exact le_refl _
      · exact le_of_not_lt h
    · exact ih (maxEventStep b y) x h

/-- C8: the live city-risk lookup matches the queried city case-insensitively
as a substring of each record's location names; among matches it returns the
one with the highest severity multiplier, tagged with source `"gdelt"`, its
themes and its article reference; it returns `none` when the city name is
empty or no record's locations match. -/
theorem gdelt_get_city_risk_spec (disruptions : List Disruption)
    (city_name : String) :
    (∀ e, e ∈ disruptions.filter (cityMatches city_name) ↔
        (e ∈ disruptions ∧
         (∃ loc ∈ e.locations,
            strIsSubstrOf (strLower city_name) (strLower loc) = true))) ∧
    (city_name = "" → get_city_risk disruptions city_name = none) ∧
    (disruptions.filter (cityMatches city_name) = [] →
        get_city_risk disruptions city_name = none) ∧
    (∀ r, get_city_risk disruptions city_name = some r →
        r.city = city_name ∧ r.source = "gdelt" ∧
        (∃ e ∈ disruptions.filter (cityMatches city_name),
            r.multiplier = e.multiplier ∧ r.reason = e.reason ∧
            r.themes = e.themes ∧ r.article_url = some e.article_url) ∧
        (∀ e ∈ disruptions.filter (cityMatches city_name),
            e.multiplier ≤ r.multiplier)) := by
  refine ⟨?_, ?_, ?_, ?_⟩
  · intro e
    rw [List.mem_filter]
    unfold cityMatches
    rw [List.any_eq_true]
  · intro h
    unfold get_city_risk
    rw [if_pos h]
  · intro h
    unfold get_city_risk
    rw [h]
    split_ifs <;> rfl
  · intro r hr
    unfold get_city_risk at hr
    split_ifs at hr with hempty
    rcases hm : disruptions.filter (cityMatches city_name) with _ | ⟨e, rest⟩
    · rw [hm] at hr
      cases hr
    · rw [hm] at hr
      have hr' := Option.some.inj hr
      subst hr'
      have htopmem : rest.foldl maxEventStep e ∈ e :: rest := by
        rcases maxEventFold_mem rest e with h | h
        · rw [h]; exact List.mem_cons_self ..
        · exact List.mem_cons_of_mem e h
      refine ⟨rfl, rfl, ⟨rest.foldl maxEventStep e, htopmem,
        rfl, rfl, rfl, rfl⟩, ?_⟩
      intro x hx
      rcases List.mem_cons.mp hx with h | h
      · rw [h]
        exact maxEventFold_init_le rest e
      · exact maxEventFold_mem_le rest e x h

/-- Closed witness for the C8 theorem: between a strike event (5.0) and a
flood event (20.0) both tagged with a Boston location, the lookup returns
the flood record. -/
theorem gdelt_get_city_risk_witness :
    get_city_risk
      [⟨["STRIKE"], "STRIKE", ["Boston, Massachusetts"], 5,
          "STRIKE signal from GDELT", "gdelt", "u1", "d1"⟩,
       ⟨["ENV_FLOOD"], "ENV_FLOOD", ["Greater Boston"], 20,
          "ENV_FLOOD signal from GDELT", "gdelt", "u2", "d2"⟩]
      "boston" =
      some ⟨"boston", 20, "ENV_FLOOD signal from GDELT", "gdelt",
        ["ENV_FLOOD"], some "u2"⟩ ∧
    RiskSignal.source ⟨"boston", 20, "ENV_FLOOD signal from GDELT", "gdelt",
        ["ENV_FLOOD"], some "u2"⟩ = "gdelt" := by
  refine ⟨by decide, ?_⟩
  exact ((gdelt_get_city_risk_spec
    [⟨["STRIKE"], "STRIKE", ["Boston, Massachusetts"], 5,
        "STRIKE signal from GDELT", "gdelt", "u1", "d1"⟩,
     ⟨["ENV_FLOOD"], "ENV_FLOOD", ["Greater Boston"], 20,
        "ENV_FLOOD signal from GDELT", "gdelt", "u2", "d2"⟩]
    "boston").2.2.2 _ (by decide)).2.1

lemma lookup_costMapMultiply_ne (m : List (ℕ × ℚ)) (rid k : ℕ) (mult : ℚ)
    (h : k ≠ rid) : (costMapMultiply m rid mult).lookup k = m.lookup k := by
  induction m with
  | nil => rfl
  | cons kv rest ih =>
    obtain ⟨k0, v0⟩ := kv
    show ((if k0 = rid then (k0, v0 * mult) else (k0, v0)) ::
        costMapMultiply rest rid mult).lookup k = ((k0, v0) :: rest).lookup k
    by_cases h0 : k0 = rid
    · rw [if_pos h0, List.lookup_cons, List.lookup_cons]
      cases hbe : (k == k0)
      · exact ih
      · exact absurd ((eq_of_beq hbe).trans h0) h
    · rw [if_neg h0, List.lookup_cons, List.lookup_cons]
      cases hbe : (k == k0)
      · exact ih
      · rfl

lemma lookup_costMapMultiply_eq (m : List (ℕ × ℚ)) (rid : ℕ) (mult : ℚ) :
    (costMapMultiply m rid mult).lookup rid =
      (m.lookup rid).map (fun c => c * mult) := by
  induction m with
  | nil => rfl
  | cons kv rest ih =>
    obtain ⟨k0, v0⟩ := kv
    show ((if k0 = rid then (k0, v0 * mult) else (k0, v0)) ::
        costMapMultiply rest rid mult).lookup rid =
      (((k0, v0) :: rest).lookup rid).map (fun c => c * mult)
    by_cases h0 : k0 = rid
    · subst h0
      rw [if_pos rfl, List.lookup_cons, List.lookup_cons,
        beq_self_eq_true k0]
      rfl
    · have hbe : (rid == k0) = false :=
        beq_false_of_ne (fun hh => h0 hh.symm)
      rw [if_neg h0, List.lookup_cons, List.lookup_cons, hbe]
      exact ih

lemma lookup_multTargets (mult : ℚ) (r : ℕ) :
    ∀ (ts : List ℕ) (m : List (ℕ × ℚ)),
      (ts.foldl (fun acc rid => costMapMultiply acc rid mult) m).lookup r =
        (m.lookup r).map (fun c => c * mult ^ (ts.count r)) := by
  intro ts
  induction ts with
  | nil =>
    intro m
    simp only [List.foldl_nil, List.count_nil, pow_zero]
    cases hl : m.lookup r <;> simp [hl]
  | cons t ts ih =>
    intro m
    rw [List.foldl_cons, ih]
    by_cases ht : t = r
    · rw [ht, lookup_costMapMultiply_eq]
      cases hl : m.lookup r
      · simp [hl]
      · simp [hl, List.count_cons_self, pow_succ]
        ring
    · rw [lookup_costMapMultiply_ne m t r mult (fun hh => ht hh.symm),
        List.count_cons_of_ne (fun hh => ht hh.symm)]

lemma lookup_applyAlerts (r : ℕ) :
    ∀ (alerts : List DisruptionAlert) (m : List (ℕ × ℚ)),
      (applyAlerts m alerts).lookup r =
        (m.lookup r).map (fun c => c * alertsFactor r alerts) := by
  intro alerts
  induction alerts with
  | nil =>
    intro m
    simp only [applyAlerts, List.foldl_nil, alertsFactor, List.map_nil,
      List.prod_nil]
    cases hl : m.lookup r <;> simp [hl]
  | cons a rest ih =>
    intro m
    have hstep : applyAlerts m (a :: rest) = applyAlerts (applyAlert m a) rest := rfl
    rw [hstep, ih]
    have ha : (applyAlert m a).lookup r =
        (m.lookup r).map (fun c => c * alertFactor r a) :=
      lookup_multTargets a.cost_multiplier r a.target_route_id m
    rw [ha]
    cases hl : m.lookup r
    · simp [hl]
    · simp [hl, alertsFactor, List.map_cons, List.prod_cons, mul_assoc]

/-- C2: applying a risk multiplier changes only the targeted entries of the
cost map.  Guardian path: only the primary route's cost is multiplied, every
other route id (a sibling/backup included) keeps its base cost.  Legacy
path: an id in no alert's `target_route_id` keeps its base cost, and an id
present in the map is scaled exactly by its alerts' multipliers (absent ids
stay absent). -/
theorem cost_multiplier_targeting_spec (base : List (ℕ × ℚ)) (mult : ℚ)
    (p r : ℕ) (alerts : List DisruptionAlert) :
    (apply_guardian_risk base none mult = base) ∧
    (r ≠ p →
      (apply_guardian_risk base (some p) mult).lookup r = base.lookup r) ∧
    ((apply_guardian_risk base (some p) mult).lookup p =
      (base.lookup p).map (fun c => c * mult)) ∧
    ((∀ a ∈ alerts, r ∉ a.target_route_id) →
      (applyAlerts base alerts).lookup r = base.lookup r) ∧
    ((applyAlerts base alerts).lookup r =
      (base.lookup r).map (fun c => c * alertsFactor r alerts)) := by
  refine ⟨rfl, ?_, ?_, ?_, lookup_applyAlerts r alerts base⟩
  · intro h
    exact lookup_costMapMultiply_ne base p r mult h
  · exact lookup_costMapMultiply_eq base p mult
  · intro h
    rw [lookup_applyAlerts r alerts base]
    have hfac : alertsFactor r alerts = 1 := by
      unfold alertsFactor
      rw [List.prod_eq_one]
      intro x hx
      rcases List.mem_map.mp hx with ⟨a, ha, hax⟩
      rw [← hax]
      unfold alertFactor
      rw [List.count_eq_zero_of_not_mem (h a ha), pow_zero]
    rw [hfac]
    cases hb : base.lookup r <;> simp

/-- Closed witness for the C2 theorem on a concrete map: multiplying route 1
by 10 leaves route 4 at its base cost. -/
theorem cost_multiplier_targeting_witness :
    (apply_guardian_risk [(1, 316), (4, 318)] (some 1) 10).lookup 4 =
      [(1, (316 : ℚ)), (4, 318)].lookup 4 ∧
    (applyAlerts [(1, 316), (4, 318)]
        [⟨[1], "flood", 10, 9⟩]).lookup 4 = some 318 := by
  have h := cost_multiplier_targeting_spec [(1, 316), (4, 318)] 10 1 4
    [⟨[1], "flood", 10, 9⟩]
  refine ⟨h.2.1 (by decide), ?_⟩
  rw [h.2.2.2.1 ?_]
  · rfl
  · intro a ha
    rcases List.mem_singleton.mp ha with rfl
    decide

/-- C1: with the backup dataset (Route 1: 157.75 km, Route 4: 159.25 km,
both at 2.0/km, both serving Boston) and a 10.0 multiplier on Route 1 only,
the legacy solver's mitigated plan assigns Boston's demand to Route 4 and 0
to Route 1, while the baseline plan assigns Boston's demand to Route 1 and
0 to Route 4 — for every demand function. -/
theorem legacy_boston_rerouting (demand : String → ℕ) :
    (solve_mitigation_plan demand [bostonAlert]).1.lookup 1 =
      some (demand "Boston") ∧
    (solve_mitigation_plan demand [bostonAlert]).1.lookup 4 = some 0 ∧
    (solve_mitigation_plan demand [bostonAlert]).2.lookup 4 =
      some (demand "Boston") ∧
    (solve_mitigation_plan demand [bostonAlert]).2.lookup 1 = some 0 := by
  have hb1 : baseCost 1 = 631/4 * 2 := rfl
  have hb4 : baseCost 4 = 637/4 * 2 := rfl
  have hb2 : baseCost 2 = 7981/50 * 2 := rfl
  have hb7 : baseCost 7 = 159 * 2 := rfl
  have hb3 : baseCost 3 = 15727/100 * 2 := rfl
  have hb6 : baseCost 6 = 15961/100 * 2 := rfl
  have hb5 : baseCost 5 = 3997/25 * 2 := rfl
  have hb8 : baseCost 8 = 158 * 2 := rfl
  have hc1 : currentCost [bostonAlert] 1 = 631/4 * 2 * 10 := rfl
  have hc4 : currentCost [bostonAlert] 4 = 637/4 * 2 := rfl
  have hc2 : currentCost [bostonAlert] 2 = 7981/50 * 2 := rfl
  have hc7 : currentCost [bostonAlert] 7 = 159 * 2 := rfl
  have hc3 : currentCost [bostonAlert] 3 = 15727/100 * 2 := rfl
  have hc6 : currentCost [bostonAlert] 6 = 15961/100 * 2 := rfl
  have hc5 : currentCost [bostonAlert] 5 = 3997/25 * 2 := rfl
  have hc8 : currentCost [bostonAlert] 8 = 158 * 2 := rfl
  have hwB : pyMin baseCost 1 [4] = 1 := by
    simp only [pyMin, List.foldl_cons, List.foldl_nil, hb1, hb4]
    norm_num
  have hwB' : pyMin (currentCost [bostonAlert]) 1 [4] = 4 := by
    simp only [pyMin, List.foldl_cons, List.foldl_nil, hc1, hc4]
    norm_num
  have hwN : pyMin baseCost 2 [7] = 7 := by
    simp only [pyMin, List.foldl_cons, List.foldl_nil, hb2, hb7]
    norm_num
  have hwN' : pyMin (currentCost [bostonAlert]) 2 [7] = 7 := by
    simp only [pyMin, List.foldl_cons, List.foldl_nil, hc2, hc7]
    norm_num
  have hwC : pyMin baseCost 3 [6] = 3 := by
    simp only [pyMin, List.foldl_cons, List.foldl_nil, hb3, hb6]
    norm_num
  have hwC' : pyMin (currentCost [bostonAlert]) 3 [6] = 3 := by
    simp only [pyMin, List.foldl_cons, List.foldl_nil, hc3, hc6]
    norm_num
  have hwP : pyMin baseCost 5 [8] = 8 := by
    simp only [pyMin, List.foldl_cons, List.foldl_nil, hb5, hb8]
    norm_num
  have hwP' : pyMin (currentCost [bostonAlert]) 5 [8] = 8 := by
    simp only [pyMin, List.foldl_cons, List.foldl_nil, hc5, hc8]
    norm_num
  have hdest : destinations = ["Boston", "New York", "Chicago",
      "Philadelphia"] := by decide
  have hoB : optionsFor "Boston" = [1, 4] := by decide
  have hoN : optionsFor "New York" = [2, 7] := by decide
  have hoC : optionsFor "Chicago" = [3, 6] := by decide
  have hoP : optionsFor "Philadelphia" = [5, 8] := by decide
  have hplan : solve_mitigation_plan demand [bostonAlert] =
      (planAssign [1, 4] 1 (demand "Boston") ++
         planAssign [2, 7] 7 (demand "New York") ++
         planAssign [3, 6] 3 (demand "Chicago") ++
         planAssign [5, 8] 8 (demand "Philadelphia"),
       planAssign [1, 4] 4 (demand "Boston") ++
         planAssign [2, 7] 7 (demand "New York") ++
         planAssign [3, 6] 3 (demand "Chicago") ++
         planAssign [5, 8] 8 (demand "Philadelphia")) := by
    unfold solve_mitigation_plan
    rw [hdest]
    simp only [List.foldl_cons, List.foldl_nil, hoB, hoN, hoC, hoP,
      hwB, hwB', hwN, hwN', hwC, hwC', hwP, hwP']
    simp [List.append_assoc]
  rw [hplan]
  simp [planAssign, List.lookup]

/-- Closed witness for the C10 theorem: a missing file yields `none`, a load
failure yields `none`, and a returned signal carries the normalized city. -/
theorem risk_monitor_total_witness :
    scan_news_for_risk false (.ok ["Mumbai fire"]) "Mumbai" = none ∧
    scan_news_for_risk true (.error ()) "Mumbai" = none ∧
    RiskAlert.city ⟨"mumbai", 10, "FIRE reported in mumbai"⟩ =
      strLower (strStrip " Mumbai") :=
  ⟨(risk_monitor_total_and_city_normalized false (.ok ["Mumbai fire"])
      "Mumbai").1 rfl,
   (risk_monitor_total_and_city_normalized true (.error ()) "Mumbai").2.1
      () rfl,
   (risk_monitor_total_and_city_normalized true
      (.ok ["Mumbai port fire reported", "Delhi calm"]) " Mumbai").2.2
      ⟨"mumbai", 10, "FIRE reported in mumbai"⟩ (by decide)⟩

lemma statusOf_cases (o n : ℕ) :
    (statusOf o n = .stopped ↔ 0 < o ∧ n = 0) ∧
    (statusOf o n = .activated ↔ o = 0 ∧ 0 < n) ∧
    (statusOf o n = .unchanged ↔ o = n ∧ 0 < o) ∧
    (statusOf o n = .available ↔ o = 0 ∧ n = 0) ∧
    (statusOf o n = .adjusted ↔ 0 < o ∧ 0 < n ∧ o ≠ n) := by
  unfold statusOf
  split_ifs with h1 h2 h3 h4 <;>
    refine ⟨?_, ?_, ?_, ?_, ?_⟩ <;> constructor <;> intro hh <;>
      simp_all <;> omega

lemma insertGroup_sound {C : ℕ → String → Prop} :
    ∀ (gs : List (String × List ℕ)) (d : String) (rid : ℕ),
      (∀ g ∈ gs, ∀ r ∈ g.2, C r g.1) → C rid d →
      ∀ g ∈ insertGroup gs d rid, ∀ r ∈ g.2, C r g.1 := by
  intro gs
  induction gs with
  | nil =>
    intro d rid _ hC g hg r hr
    simp only [insertGroup, List.mem_singleton] at hg
    subst hg
    simp only [List.mem_singleton] at hr
    subst hr
    exact hC
  | cons p rest ih =>
    intro d rid hgs hC g hg r hr
    obtain ⟨k, rs⟩ := p
    unfold insertGroup at hg
    by_cases hk : k = d
    · rw [if_pos hk] at hg
      rcases List.mem_cons.mp hg with h | h
      · subst h
        rcases List.mem_append.mp hr with h2 | h2
        · exact hgs (k, rs) (List.mem_cons_self ..) r h2
        · rw [List.mem_singleton] at h2
          subst h2
          exact hk ▸ hC
      · exact hgs g (List.mem_cons_of_mem _ h) r hr
    · rw [if_neg hk] at hg
      rcases List.mem_cons.mp hg with h | h
      · subst h
        exact hgs (k, rs) (List.mem_cons_self ..) r hr
      · exact ih d rid (fun g' hg' => hgs g' (List.mem_cons_of_mem _ hg'))
          hC g h r hr

lemma foldl_insert_sound {C : ℕ → String → Prop} :
    ∀ (l : List (ℕ × RouteTuple)) (gs : List (String × List ℕ)),
      (∀ g ∈ gs, ∀ r ∈ g.2, C r g.1) → (∀ e ∈ l, C e.1 e.2.dest) →
      ∀ g ∈ l.foldl (fun gs e => insertGroup gs e.2.dest e.1) gs,
        ∀ r ∈ g.2, C r g.1 := by
  intro l
  induction l with
  | nil =>
    intro gs hgs _ g hg
    exact hgs g hg
  | cons e l ih =>
    intro gs hgs hl g hg r hr
    exact ih (insertGroup gs e.2.dest e.1)
      (insertGroup_sound gs e.2.dest e.1 hgs (hl e (List.mem_cons_self ..)))
      (fun e' he' => hl e' (List.mem_cons_of_mem _ he')) g hg r hr

lemma destGroups_sound (rm : List (ℕ × RouteTuple)) :
    ∀ g ∈ destGroups rm, ∀ r ∈ g.2, ∃ rt, (r, rt) ∈ rm ∧ rt.dest = g.1 := by
  intro g hg r hr
  exact foldl_insert_sound (C := fun r d => ∃ rt, (r, rt) ∈ rm ∧ rt.dest = d)
    rm [] (by intro g hg; cases hg)
    (fun e he => ⟨e.2, by simpa using he, rfl⟩) g hg r hr

lemma insertGroup_keys : ∀ (gs : List (String × List ℕ)) (d : String)
    (rid : ℕ),
    (insertGroup gs d rid).map Prod.fst =
      if d ∈ gs.map Prod.fst then gs.map Prod.fst
      else gs.map Prod.fst ++ [d] := by
  intro gs
  induction gs with
  | nil => intro d rid; simp [insertGroup]
  | cons p rest ih =>
    intro d rid
    obtain ⟨k, rs⟩ := p
    by_cases hk : k = d
    · subst hk
      simp [insertGroup]
    · have hdk : ¬ d = k := fun h => hk h.symm
      by_cases hd : d ∈ rest.map Prod.fst <;>
        simp [insertGroup, hk, hdk, hd, ih]

lemma foldl_insert_keys_nodup :
    ∀ (l : List (ℕ × RouteTuple)) (gs : List (String × List ℕ)),
      (gs.map Prod.fst).Nodup →
      ((l.foldl (fun gs e => insertGroup gs e.2.dest e.1) gs).map
          Prod.fst).Nodup := by
  intro l
  induction l with
  | nil => intro gs h; exact h
  | cons e l ih =>
    intro gs h
    apply ih
    rw [insertGroup_keys]
    split_ifs with hd
    · exact h
    · simp [List.nodup_append, h, hd]

lemma destGroups_keys_nodup (rm : List (ℕ × RouteTuple)) :
    ((destGroups rm).map Prod.fst).Nodup :=
  foldl_insert_keys_nodup rm [] List.nodup_nil

lemma insertGroup_mono : ∀ (gs : List (String × List ℕ)) (d : String)
    (rid : ℕ) (g : String × List ℕ), g ∈ gs →
    ∃ g' ∈ insertGroup gs d rid, g'.1 = g.1 ∧ ∀ x ∈ g.2, x ∈ g'.2 := by
  intro gs
  induction gs with
  | nil => intro d rid g hg; cases hg
  | cons p rest ih =>
    intro d rid g hg
    obtain ⟨k, rs⟩ := p
    unfold insertGroup
    by_cases hk : k = d
    · rw [if_pos hk]
      rcases List.mem_cons.mp hg with h | h
      · subst h
        exact ⟨(k, rs ++ [rid]), List.mem_cons_self .., rfl,
          fun x hx => List.mem_append_left _ hx⟩
      · exact ⟨g, List.mem_cons_of_mem _ h, rfl, fun x hx => hx⟩
    · rw [if_neg hk]
      rcases List.mem_cons.mp hg with h | h
      · subst h
        exact ⟨(k, rs), List.mem_cons_self .., rfl, fun x hx => hx⟩
      · rcases ih d rid g h with ⟨g', hg', hkey, hsub⟩
        exact ⟨g', List.mem_cons_of_mem _ hg', hkey, hsub⟩

lemma insertGroup_adds : ∀ (gs : List (String × List ℕ)) (d : String)
    (rid : ℕ), ∃ g ∈ insertGroup gs d rid, g.1 = d ∧ rid ∈ g.2 := by
  intro gs
  induction gs with
  | nil =>
    intro d rid
    exact ⟨(d, [rid]), List.mem_singleton.mpr rfl, rfl,
      List.mem_singleton.mpr rfl⟩
  | cons p rest ih =>
    intro d rid
    obtain ⟨k, rs⟩ := p
    unfold insertGroup
    by_cases hk : k = d
    · rw [if_pos hk]
      exact ⟨(k, rs ++ [rid]), List.mem_cons_self .., hk,
        List.mem_append_right _ (List.mem_singleton.mpr rfl)⟩
    · rw [if_neg hk]
      rcases ih d rid with ⟨g, hg, hkey, hmem⟩
      exact ⟨g, List.mem_cons_of_mem _ hg, hkey, hmem⟩

lemma foldl_insert_mono :
    ∀ (l : List (ℕ × RouteTuple)) (gs : List (String × List ℕ))
      (g : String × List ℕ), g ∈ gs →
      ∃ g' ∈ l.foldl (fun gs e => insertGroup gs e.2.dest e.1) gs,
        g'.1 = g.1 ∧ ∀ x ∈ g.2, x ∈ g'.2 := by
  intro l
  induction l with
  | nil =>
    intro gs g hg
    exact ⟨g, hg, rfl, fun x hx => hx⟩
  | cons e l ih =>
    intro gs g hg
    rcases insertGroup_mono gs e.2.dest e.1 g hg with ⟨g1, hg1, hkey1, hsub1⟩
    rcases ih (insertGroup gs e.2.dest e.1) g1 hg1 with ⟨g2, hg2, hkey2, hsub2⟩
    exact ⟨g2, hg2, hkey2.trans hkey1, fun x hx => hsub2 x (hsub1 x hx)⟩

lemma destGroups_complete :
    ∀ (l : List (ℕ × RouteTuple)) (gs : List (String × List ℕ))
      (e : ℕ × RouteTuple), e ∈ l →
      ∃ g ∈ l.foldl (fun gs e => insertGroup gs e.2.dest e.1) gs,
        g.1 = e.2.dest ∧ e.1 ∈ g.2 := by
  intro l
  induction l with
  | nil => intro gs e he; cases he
  | cons f l ih =>
    intro gs e he
    rcases List.mem_cons.mp he with h | h
    · subst h
      rcases insertGroup_adds gs e.2.dest e.1 with ⟨g0, hg0, hkey0, hmem0⟩
      rcases foldl_insert_mono l (insertGroup gs e.2.dest e.1) g0 hg0 with
        ⟨g', hg', hkey', hsub'⟩
      exact ⟨g', hg', hkey'.trans hkey0, hsub' e.1 hmem0⟩
    · exact ih (insertGroup gs f.2.dest f.1) e h

/-- C9: every row of the impact report carries the plans' quantities for its
route id and the status STOPPED / ACTIVATED / UNCHANGED / AVAILABLE /
ADJUSTED exactly as the claim's case split prescribes; rows are grouped by
destination (destination keys are unique and every group's route ids serve
that destination, with every route of the (filtered) map represented) and
listed in ascending route-id order within each group. -/
theorem impact_report_status_and_order (rm : List (ℕ × RouteTuple))
    (cost : ℕ → ℚ) (ip mp : ℕ → ℕ) (fd : Option String) :
    (∀ row ∈ generate_impact_report rm cost ip mp fd,
        row.initial_qty = ip row.route_id ∧
        row.final_qty = mp row.route_id ∧
        row.status = statusOf row.initial_qty row.final_qty ∧
        (row.status = .stopped ↔ 0 < row.initial_qty ∧ row.final_qty = 0) ∧
        (row.status = .activated ↔ row.initial_qty = 0 ∧ 0 < row.final_qty) ∧
        (row.status = .unchanged ↔
          row.initial_qty = row.final_qty ∧ 0 < row.initial_qty) ∧
        (row.status = .available ↔ row.initial_qty = 0 ∧ row.final_qty = 0) ∧
        (row.status = .adjusted ↔ 0 < row.initial_qty ∧ 0 < row.final_qty ∧
          row.initial_qty ≠ row.final_qty)) ∧
    (generate_impact_report rm cost ip mp fd =
      (filteredGroups rm fd).flatMap fun g =>
        (sortNat g.2).map (reportRowFor rm cost ip mp)) ∧
    (∀ g ∈ filteredGroups rm fd,
        (sortNat g.2).Sorted (· ≤ ·) ∧ (sortNat g.2).Perm g.2) ∧
    ((filteredGroups rm fd).map Prod.fst).Nodup ∧
    (∀ g ∈ filteredGroups rm fd, ∀ r ∈ g.2,
        ∃ rt, (r, rt) ∈ rm ∧ rt.dest = g.1) ∧
    (∀ e ∈ rm, (fd = none ∨ fd = some e.2.dest) →
        ∃ g ∈ filteredGroups rm fd, g.1 = e.2.dest ∧ e.1 ∈ g.2) := by
  have hgroups_sub : ∀ g ∈ filteredGroups rm fd, g ∈ destGroups rm := by
    intro g hg
    unfold filteredGroups at hg
    rcases fd with _ | f
    · exact hg
    · dsimp only at hg
      split_ifs at hg with hf
      · exact hg
      · exact (List.mem_filter.mp hg).1
  refine ⟨?_, rfl, ?_, ?_, ?_, ?_⟩
  · intro row hrow
    unfold generate_impact_report at hrow
    rcases List.mem_flatMap.mp hrow with ⟨g, hg, hrow2⟩
    rcases List.mem_map.mp hrow2 with ⟨rid, _, hr⟩
    subst hr
    exact ⟨rfl, rfl, rfl,
      (statusOf_cases (ip rid) (mp rid)).1,
      (statusOf_cases (ip rid) (mp rid)).2.1,
      (statusOf_cases (ip rid) (mp rid)).2.2.1,
      (statusOf_cases (ip rid) (mp rid)).2.2.2.1,
      (statusOf_cases (ip rid) (mp rid)).2.2.2.2⟩
  · intro g _
    exact ⟨List.sorted_insertionSort _ g.2, List.perm_insertionSort _ g.2⟩
  · unfold filteredGroups
    rcases fd with _ | f
    · exact destGroups_keys_nodup rm
    · dsimp only
      split_ifs with hf
      · exact destGroups_keys_nodup rm
      · exact List.Nodup.sublist
          ((List.filter_sublist _).map Prod.fst)
          (destGroups_keys_nodup rm)
  · intro g hg r hr
    exact destGroups_sound rm g (hgroups_sub g hg) r hr
  · intro e he hfd
    rcases destGroups_complete rm [] e he with ⟨g, hg, hkey, hmem⟩
    rcases hfd with h | h
    · subst h
      exact ⟨g, hg, hkey, hmem⟩
    · subst h
      unfold filteredGroups
      dsimp only
      split_ifs with hf
      · exact ⟨g, hg, hkey, hmem⟩
      · exact ⟨g, List.mem_filter.mpr ⟨hg, by simp [hkey]⟩, hkey, hmem⟩

/-- Closed witness for the C9 theorem: a two-route Boston map listed out of
order yields rows sorted by route id, with route 1 STOPPED and route 4
ACTIVATED. -/
theorem impact_report_witness :
    generate_impact_report
        [(4, .direct "Warehouse_South" "Boston"),
         (1, .direct "Warehouse_North" "Boston")]
        (fun _ => 1)
        (fun r => if r = 1 then 100 else 0)
        (fun r => if r = 4 then 100 else 0) none =
      [⟨1, "Direct", "Warehouse_North → Boston", 1, 100, 0, .stopped⟩,
       ⟨4, "Direct", "Warehouse_South → Boston", 1, 0, 100, .activated⟩] ∧
    (⟨1, "Direct", "Warehouse_North → Boston", (1 : ℚ), 100, 0,
        RouteStatus.stopped⟩ : ReportRow).status = .stopped := by
  refine ⟨by decide, ?_⟩
  have h := (impact_report_status_and_order
      [(4, .direct "Warehouse_South" "Boston"),
       (1, .direct "Warehouse_North" "Boston")]
      (fun _ => 1) (fun r => if r = 1 then 100 else 0)
      (fun r => if r = 4 then 100 else 0) none).1
      ⟨1, "Direct", "Warehouse_North → Boston", 1, 100, 0, .stopped⟩
      (by decide)
  exact (h.2.2.2.1).mpr (by decide)

lemma sortByCost_head_min (opts : List RouteOption) (p : RouteOption)
    (rest : List RouteOption) (h : sortByCost opts = p :: rest) :
    p ∈ opts ∧ ∀ r ∈ opts, p.cost_per_unit ≤ r.cost_per_unit := by
  unfold sortByCost at h
  have hperm := List.perm_insertionSort
    (fun a b : RouteOption => a.cost_per_unit ≤ b.cost_per_unit) opts
  have hsorted := List.sorted_insertionSort
    (fun a b : RouteOption => a.cost_per_unit ≤ b.cost_per_unit) opts
  rw [h] at hperm hsorted
  refine ⟨hperm.mem_iff.mp (List.mem_cons_self ..), ?_⟩
  intro r hr
  rcases List.mem_cons.mp (hperm.mem_iff.mpr hr) with h1 | h1
  · subst h1
    exact le_refl _
  · exact (List.sorted_cons.mp hsorted).1 r h1

lemma budget_filter_head_min (opts : List RouteOption) (b : ℚ)
    (p : RouteOption) (W : List RouteOption)
    (h : ((sortByCost opts).filter
        fun r => r.total_cost_for_full_qty ≤ b) = p :: W) :
    p ∈ opts ∧ p.total_cost_for_full_qty ≤ b ∧
    ∀ r ∈ opts, r.total_cost_for_full_qty ≤ b →
      p.cost_per_unit ≤ r.cost_per_unit := by
  have hperm := List.perm_insertionSort
    (fun a b : RouteOption => a.cost_per_unit ≤ b.cost_per_unit) opts
  have hsorted := List.sorted_insertionSort
    (fun a b : RouteOption => a.cost_per_unit ≤ b.cost_per_unit) opts
  have hfs : (p :: W).Sorted
      fun a b : RouteOption => a.cost_per_unit ≤ b.cost_per_unit := by
    rw [← h]
    exact List.Pairwise.sublist (List.filter_sublist _) hsorted
  have hpf : p ∈ (sortByCost opts).filter
      fun r => r.total_cost_for_full_qty ≤ b := by
    rw [h]
    exact List.mem_cons_self ..
  have hp2 := List.mem_filter.mp hpf
  refine ⟨hperm.mem_iff.mp hp2.1, of_decide_eq_true hp2.2, ?_⟩
  intro r hr hrb
  have hrf : r ∈ (sortByCost opts).filter
      fun r => r.total_cost_for_full_qty ≤ b :=
    List.mem_filter.mpr ⟨hperm.mem_iff.mpr hr, decide_eq_true hrb⟩
  rw [h] at hrf
  rcases List.mem_cons.mp hrf with h1 | h1
  · subst h1
    exact le_refl _
  · exact (List.sorted_cons.mp hfs).1 r h1

/-- C7 counterexample: with routes costing 1000 and 2000 in total and a
budget of 500 that no route satisfies, the selection falls back to the
globally cheapest route (route 3), but the returned analysis still claims
"Within budget of $500.00." and nowhere notes that the budget was exceeded
(no form of "exceed" occurs in it). -/
theorem budget_exceeded_note_counterexample :
    rule_based_route_selection
        [⟨3, "direct", "Warehouse_A → Chicago", 10, 1000⟩,
         ⟨6, "multi-hop", "Warehouse_B → Hub → Chicago", 20, 2000⟩]
        100 (some 500) 1 =
      some ⟨[⟨3, 100, "primary",
              "Most cost-efficient: $10.00/unit via Warehouse_A → Chicago"⟩,
             ⟨6, 0, "backup", "Redundancy option: $20.00/unit"⟩],
            1000,
            "Cost-optimized selection: Chose direct route 3 ($1000.00 total) as primary. Within budget of $500.00. Route 6 available as backup."⟩ ∧
    strIsSubstrOf "Within budget"
      "Cost-optimized selection: Chose direct route 3 ($1000.00 total) as primary. Within budget of $500.00. Route 6 available as backup." = true ∧
    strIsSubstrOf "exceed"
      (strLower "Cost-optimized selection: Chose direct route 3 ($1000.00 total) as primary. Within budget of $500.00. Route 6 available as backup.") = false := by
  refine ⟨by decide, by decide, by decide⟩

/-- C7 (amended): with a truthy budget, candidates are filtered to those
whose total cost for the requested quantity is within the budget and a
minimum-unit-cost route among them is selected as primary; when no route
satisfies the budget, selection falls back to the globally cheapest route —
but in both cases the returned analysis reports "Within budget of
$<budget>. " and does not note that the budget was exceeded. -/
theorem budget_selection_spec (opts : List RouteOption) (quantity : ℕ)
    (b risk : ℚ) (hb : b ≠ 0) :
    (∀ p W, ((sortByCost opts).filter
          fun r => r.total_cost_for_full_qty ≤ b) = p :: W →
      ∃ sel, rule_based_route_selection opts quantity (some b) risk =
          some sel ∧
        (sel.selected_routes.headD ⟨0, 0, "", ""⟩).route_id = p.route_id ∧
        sel.total_cost = p.total_cost_for_full_qty ∧
        p ∈ opts ∧ p.total_cost_for_full_qty ≤ b ∧
        (∀ r ∈ opts, r.total_cost_for_full_qty ≤ b →
          p.cost_per_unit ≤ r.cost_per_unit) ∧
        (∃ s1 s2, sel.analysis =
          s1 ++ ("Within budget of $" ++ fmt2 b ++ ". ") ++ s2)) ∧
    (∀ p rest, (∀ r ∈ opts, ¬ r.total_cost_for_full_qty ≤ b) →
      sortByCost opts = p :: rest →
      ∃ sel, rule_based_route_selection opts quantity (some b) risk =
          some sel ∧
        (sel.selected_routes.headD ⟨0, 0, "", ""⟩).route_id = p.route_id ∧
        sel.total_cost = p.total_cost_for_full_qty ∧
        p ∈ opts ∧
        (∀ r ∈ opts, p.cost_per_unit ≤ r.cost_per_unit) ∧
        (∃ s1 s2, sel.analysis =
          s1 ++ ("Within budget of $" ++ fmt2 b ++ ". ") ++ s2)) := by
  have hbt : budgetTruthy (some b) = true := by
    simp [budgetTruthy, hb]
  constructor
  · intro p W h
    obtain ⟨hpm, hpb, hmin⟩ := budget_filter_head_min opts b p W h
    unfold rule_based_route_selection
    rw [hbt]
    simp only [if_true, Option.getD_some]
    rw [h]
    simp only [List.isEmpty_cons, Bool.false_eq_true, if_false]
    refine ⟨_, rfl, ?_, rfl, hpm, hpb, hmin, ?_⟩
    · cases hWe : W.isEmpty <;> simp [hWe]
    · exact ⟨"Cost-optimized selection: Chose " ++ p.rtype ++ " route " ++
        toString p.route_id ++ " ($" ++
        fmt2 p.total_cost_for_full_qty ++ " total) as primary. ",
        (if W.isEmpty then ""
         else "Route " ++ toString (W.headD p).route_id ++
           " available as backup."),
        by simp [String.append_assoc]⟩
  · intro p rest hall h
    obtain ⟨hpm, hmin⟩ := sortByCost_head_min opts p rest h
    have hfil : ((sortByCost opts).filter
        fun r => r.total_cost_for_full_qty ≤ b) = [] := by
      rw [List.filter_eq_nil_iff]
      intro r hr
      have hro : r ∈ opts := (List.perm_insertionSort
        (fun a b : RouteOption => a.cost_per_unit ≤ b.cost_per_unit)
        opts).mem_iff.mp hr
      simpa using hall r hro
    unfold rule_based_route_selection
    rw [hbt]
    simp only [if_true, Option.getD_some]
    rw [hfil]
    simp only [List.isEmpty_nil, if_true]
    rw [h]
    refine ⟨_, rfl, ?_, rfl, hpm, hmin, ?_⟩
    · cases hWe : rest.isEmpty <;> simp [hWe]
    · exact ⟨"Cost-optimized selection: Chose " ++ p.rtype ++ " route " ++
        toString p.route_id ++ " ($" ++
        fmt2 p.total_cost_for_full_qty ++ " total) as primary. ",
        (if rest.isEmpty then ""
         else "Route " ++ toString (rest.headD p).route_id ++
           " available as backup."),
        by simp [String.append_assoc]⟩

/-- Closed witness for the amended C7 theorem: with budget 1500 only route 3
(total 1000) survives the filter and is selected; with budget 500 no route
qualifies and route 3, the globally cheapest, is selected anyway. -/
theorem budget_selection_witness :
    (∃ sel, rule_based_route_selection
        [⟨3, "direct", "Warehouse_A → Chicago", 10, 1000⟩,
         ⟨6, "multi-hop", "Warehouse_B → Hub → Chicago", 20, 2000⟩]
        100 (some 1500) 1 = some sel ∧
      (sel.selected_routes.headD ⟨0, 0, "", ""⟩).route_id = 3) ∧
    (∃ sel, rule_based_route_selection
        [⟨3, "direct", "Warehouse_A → Chicago", 10, 1000⟩,
         ⟨6, "multi-hop", "Warehouse_B → Hub → Chicago", 20, 2000⟩]
        100 (some 500) 1 = some sel ∧
      (sel.selected_routes.headD ⟨0, 0, "", ""⟩).route_id = 3) := by
  constructor
  · obtain ⟨sel, hsel, hid, _⟩ :=
      (budget_selection_spec
        [⟨3, "direct", "Warehouse_A → Chicago", 10, 1000⟩,
         ⟨6, "multi-hop", "Warehouse_B → Hub → Chicago", 20, 2000⟩]
        100 1500 1 (by decide)).1
        ⟨3, "direct", "Warehouse_A → Chicago", 10, 1000⟩ [] (by decide)
    exact ⟨sel, hsel, hid⟩
  · obtain ⟨sel, hsel, hid, _⟩ :=
      (budget_selection_spec
        [⟨3, "direct", "Warehouse_A → Chicago", 10, 1000⟩,
         ⟨6, "multi-hop", "Warehouse_B → Hub → Chicago", 20, 2000⟩]
        100 500 1 (by decide)).2
        ⟨3, "direct", "Warehouse_A → Chicago", 10, 1000⟩
        [⟨6, "multi-hop", "Warehouse_B → Hub → Chicago", 20, 2000⟩]
        (by decide) (by decide)
    exact ⟨sel, hsel, hid⟩
